import Mathlib

/-!
Verification of the subtitle batch extract-merge pipeline of the dj-cli
repository (src/actions/proc.ts and the subtitle command layer).

The TypeScript source is shallowly embedded: pure functions become Lean
functions on `Nat`/`Int`/`String`/`List`; file-system reads, the external
demuxer/extractor tools and the terminal input stream are passed in
explicitly as environment values; fallible operations return `Except`.
JavaScript string primitives that the source relies on (`toLowerCase`,
`trim`, `includes`, `parseInt`) are modelled character-by-character so that
every definition is executable by the kernel.
-/

namespace DjCli

/-- Models `String.prototype.toLowerCase` for the ASCII range (the only
characters the source compares: codec identifiers and y/n answers). -/
def lowerChar (c : Char) : Char :=
  if 'A' ≤ c && c ≤ 'Z' then Char.ofNat (c.toNat + 32) else c

/-- `codec.toLowerCase()` etc. -/
def jsToLower (s : String) : String := String.mk (s.data.map lowerChar)

/-- Models `String.prototype.trim`. -/
def jsTrim (s : String) : String :=
  String.mk (((s.data.dropWhile Char.isWhitespace).reverse.dropWhile Char.isWhitespace).reverse)

/-- `pat` begins the list `l`. -/
def isPrefixB : List Char → List Char → Bool
  | [], _ => true
  | _ :: _, [] => false
  | p :: ps, h :: hs => p == h && isPrefixB ps hs

/-- Helper for substring containment: does `pat` occur at some position? -/
def containsAux (pat : List Char) : List Char → Bool
  | [] => isPrefixB pat []
  | h :: hs => isPrefixB pat (h :: hs) || containsAux pat hs

/-- Models `String.prototype.includes(pat)`. -/
def strIncludes (hay pat : String) : Bool := containsAux pat.data hay.data

/-- Value of a block of decimal digits. -/
def digitsVal : List Char → Int → Int
  | [], acc => acc
  | c :: cs, acc => digitsVal cs (acc * 10 + ((c.toNat : Int) - 48))

/-- Leading decimal digits of a character list, `none` when there are none. -/
def parseDigits (cs : List Char) : Option Int :=
  let ds := cs.takeWhile Char.isDigit
  if ds.isEmpty then none else some (digitsVal ds 0)

/-- Models JavaScript `parseInt(s)` (base 10) on the strings the source feeds
it: an optional sign followed by leading digits, trailing characters ignored,
`none` standing for `NaN`. -/
def parseIntJS (s : String) : Option Int :=
  match s.data with
  | '-' :: rest => (parseDigits rest).map (fun n => -n)
  | '+' :: rest => parseDigits rest
  | rest => parseDigits rest

/-- `SubtitleTrack` (proc.ts lines 80-88). The optional `default`/`forced`
flags are always populated by `getSubtitlesFromMkv` (`?? false`), so they are
plain booleans here; they are named `isDefault`/`isForced` because `default`
is reserved in Lean. -/
structure SubtitleTrack where
  id : Int
  type : String
  codec : String
  language : Option String
  trackName : Option String
  isDefault : Bool
  isForced : Bool
deriving DecidableEq, Repr

/-- The 6-field comparison in `findSubtitleTracks` (proc.ts lines 241-248):
`id` is not compared. -/
def trackEquiv (track targetTrack : SubtitleTrack) : Bool :=
  track.type == targetTrack.type &&
  track.codec == targetTrack.codec &&
  track.language == targetTrack.language &&
  track.trackName == targetTrack.trackName &&
  track.isDefault == targetTrack.isDefault &&
  track.isForced == targetTrack.isForced

/-- Return shape of `findSubtitleTracks` (proc.ts lines 230-236). -/
structure FindResult where
  found : List SubtitleTrack
  missing : List SubtitleTrack
  foundCount : Nat
  totalRequested : Nat
  allFound : Bool
deriving DecidableEq, Repr

/-- The loop of `findSubtitleTracks` (proc.ts lines 240-254): for each target
in order, `allTracks.find(...)` records the first equivalent candidate into
`found`, otherwise the target goes to `missing`. -/
def findLoop (allTracks : List SubtitleTrack) :
    List SubtitleTrack → List SubtitleTrack × List SubtitleTrack
  | [] => ([], [])
  | t :: ts =>
    let rest := findLoop allTracks ts
    match allTracks.find? (fun track => trackEquiv track t) with
    | some f => (f :: rest.1, rest.2)
    | none => (rest.1, t :: rest.2)

/-- `findSubtitleTracks` (proc.ts lines 227-263). -/
def findSubtitleTracks (targetTracks allTracks : List SubtitleTrack) : FindResult :=
  let r := findLoop allTracks targetTracks
  { found := r.1
    missing := r.2
    foundCount := r.1.length
    totalRequested := targetTracks.length
    allFound := r.2.length == 0 }

/-- `getSubtitleExtension` (proc.ts lines 265-278). -/
def getSubtitleExtension (codec : String) : String :=
  if strIncludes (jsToLower codec) "ass" || strIncludes (jsToLower codec) "ssa" then ".ass"
  else if strIncludes (jsToLower codec) "pgs" || strIncludes (jsToLower codec) "hdmv" then ".sup"
  else if strIncludes (jsToLower codec) "vobsub" then ".sub"
  else if strIncludes (jsToLower codec) "dvd" then ".sub"
  else ".srt"

/-- The extension rule as the spec words it (§4.4): contains "ass"/"ssa" →
`.ass`; contains "pgs"/"hdmv" → `.sup`; contains "vobsub" or "dvd" → `.sub`;
otherwise `.srt`; case-insensitive, first match wins. Used to compare the
source function against the spec's sentence. -/
def specExtensionRule (codec : String) : String :=
  if strIncludes (jsToLower codec) "ass" || strIncludes (jsToLower codec) "ssa" then ".ass"
  else if strIncludes (jsToLower codec) "pgs" || strIncludes (jsToLower codec) "hdmv" then ".sup"
  else if strIncludes (jsToLower codec) "vobsub" || strIncludes (jsToLower codec) "dvd" then ".sub"
  else ".srt"

/-- The validator closure passed by `selectSubtitles` to `readInput`
(proc.ts lines 190-210): the line must parse as an integer, be within
`[1, subtitles.length]`, and must not name a track already selected. -/
def selectValidator (subtitles selectedTracks : List SubtitleTrack) (input : String) : Bool :=
  match parseIntJS (jsTrim input) with
  | none => false
  | some inputNum =>
    if inputNum < 1 || inputNum > (subtitles.length : Int) then false
    else
      match subtitles.get? (inputNum.toNat - 1) with
      | none => false
      | some selectedTrack => !(selectedTracks.any (fun track => track.id == selectedTrack.id))

/-- Models `readInput` (proc.ts lines 31-56) over an explicit stream of input
lines. The source's do-while condition is `while (!validator || validator(input))`:
with a validator present it keeps looping (printing "Invalid input!") while the
validator ACCEPTS the line, and returns the first line the validator REJECTS.
`none` models the call never returning (stream exhausted while the loop
continues; with no validator the source loops forever). Returns the produced
line together with the unconsumed remainder of the stream. -/
def readInputLoop (validator : String → Bool) : List String → Option (String × List String)
  | [] => none
  | line :: rest =>
    if validator line then readInputLoop validator rest else some (line, rest)

/-- Result of running `selectSubtitles` against an input stream. `crash`
models the JavaScript TypeError raised at proc.ts line 214 when
`subtitles[parseInt(input.trim()) - 1]` is `undefined` and `.language` is read
from it; `blocked` models the process waiting forever on input. -/
inductive SelectOutcome where
  | ok (tracks : List SubtitleTrack)
  | crash
  | blocked
deriving DecidableEq, Repr

/-- The `for (let i = 1; i <= numTracks; i++)` loop of `selectSubtitles`
(proc.ts lines 184-216), counting down the remaining selections. -/
def selectLoop (subtitles : List SubtitleTrack) :
    Nat → List SubtitleTrack → List String → SelectOutcome × List String
  | 0, selectedTracks, inputs => (.ok selectedTracks, inputs)
  | Nat.succ remaining, selectedTracks, inputs =>
    if subtitles.length ≤ selectedTracks.length then (.ok selectedTracks, inputs)
    else
      match readInputLoop (selectValidator subtitles selectedTracks) inputs with
      | none => (.blocked, [])
      | some (input, rest) =>
        match parseIntJS (jsTrim input) with
        | none => (.crash, rest)
        | some n =>
          if n < 1 then (.crash, rest)
          else
            match subtitles.get? (n.toNat - 1) with
            | none => (.crash, rest)
            | some selectedTrack =>
              selectLoop subtitles remaining (selectedTracks ++ [selectedTrack]) rest

/-- `selectSubtitles` (proc.ts lines 175-219). -/
def selectSubtitles (subtitles : List SubtitleTrack) (numTracks : Nat)
    (inputs : List String) : SelectOutcome × List String :=
  if subtitles.length = 0 || numTracks < 1 then (.ok [], inputs)
  else selectLoop subtitles numTracks [] inputs

/-- Cue payload of the `subtitle` library's node type: `start`/`end` in
integer milliseconds plus the cue text. -/
structure CueData where
  start : Int
  «end» : Int
  text : String
deriving DecidableEq, Repr

/-- A parsed subtitle-file element: a cue, or a non-cue header block. -/
inductive Node where
  | cue (data : CueData)
  | header (text : String)
deriving DecidableEq, Repr

def isCue : Node → Bool
  | .cue _ => true
  | .header _ => false

/-- The color markup applied in `parseSubtitles` (proc.ts line 488). -/
def wrapFont (color text : String) : String :=
  "<font color=\"" ++ color ++ "\">" ++ text ++ "</font>"

/-- The per-node transform of `parseSubtitles` (proc.ts lines 482-494):
cue text is wrapped in a font tag when a color is supplied, headers pass
through untouched. -/
def colorNode (applyColor : Option String) : Node → Node
  | .cue d =>
    .cue { d with text := match applyColor with
                          | some c => wrapFont c d.text
                          | none => d.text }
  | .header t => .header t

/-- `parseSubtitles` (proc.ts lines 480-495). The external `parseSync` of the
`subtitle` package is an explicit parameter (external collaborator). -/
def parseSubtitles (parseSync : String → List Node) (content : String)
    (applyColor : Option String) : List Node :=
  (parseSync content).map (colorNode applyColor)

/-- Sort key of the merge comparator (proc.ts lines 448-449): a cue's `start`,
with non-cue nodes treated as 0. -/
def nodeStart : Node → Int
  | .cue d => d.start
  | .header _ => 0

/-- The comparator `(a, b) => aStart - bStart` as a boolean order. -/
def nodeLE (a b : Node) : Bool := nodeStart a ≤ nodeStart b

/-- The merge step of `mergeSrtFiles` (proc.ts lines 447-452): concatenate the
two node lists and sort by `nodeStart`. JavaScript `Array.prototype.sort` is
stable, modelled by `List.mergeSort`. -/
def mergeNodeLists (l1 l2 : List Node) : List Node :=
  (l1 ++ l2).mergeSort nodeLE

/-- Error kinds of the pipeline. The first group is the taxonomy the spec
names (§7); `typeError` models an untyped JavaScript `TypeError` escaping, and
`inputExhausted` is the model's stand-in for the process blocking forever on
an input stream with no further lines. -/
inductive TypeErrorSite where
  | selectorTrack
  | outputPathIndex0
  | outputPathIndex1
  | mergeExtractedIndex
deriving DecidableEq, Repr

inductive PipelineError where
  | fileNotFound
  | directoryNotFound
  | permissionError
  | emptyFile
  | noTracks
  | malformedOutput
  | externalTool
  | extractionVerification
  | invalidOffset
  | typeError (site : TypeErrorSite)
  | inputExhausted
deriving DecidableEq, Repr

/-- Whether an error is one of the kinds the spec's error taxonomy (§7)
names. -/
def isSpecifiedErrorKind : PipelineError → Bool
  | .typeError _ => false
  | .inputExhausted => false
  | _ => true

/-- `SubtitleOptions` (proc.ts lines 68-71), with the file at `path` replaced
by its content (`none` = missing file). -/
structure SubtitleOptions where
  content : Option String
  color : Option String

/-- `mergeSrtFiles` (proc.ts lines 428-461), returning the merged node list
that is serialized to the output file. -/
def mergeSrtFiles (parseSync : String → List Node)
    (subtitle1 subtitle2 : SubtitleOptions) : Except PipelineError (List Node) :=
  match subtitle1.content with
  | none => .error .fileNotFound
  | some subtitle1Content =>
    match subtitle2.content with
    | none => .error .fileNotFound
    | some subtitle2Content =>
      if (jsTrim subtitle1Content).data.isEmpty then .error .emptyFile
      else if (jsTrim subtitle2Content).data.isEmpty then .error .emptyFile
      else
        let subtitle1NodeList :=
          parseSubtitles parseSync subtitle1Content (some (subtitle1.color.getD "white"))
        let subtitle2NodeList :=
          parseSubtitles parseSync subtitle2Content (some (subtitle2.color.getD "yellow"))
        .ok (mergeNodeLists subtitle1NodeList subtitle2NodeList)

/-- The per-node shift of `shiftSubtitle` (proc.ts lines 557-570): headers
pass through, every other node gets `timeMs` added to `start` and `end`. -/
def shiftNode (timeMs : Int) : Node → Node
  | .header t => .header t
  | .cue d => .cue { d with start := d.start + timeMs, «end» := d.«end» + timeMs }

/-- `shiftSubtitle` (proc.ts lines 548-577), returning the shifted node list
that is serialized to `outPath`. Note: the action itself contains no check on
`timeMs`. -/
def shiftSubtitle (parseSync : String → List Node) (timeMs : Int)
    (subContent : Option String) : Except PipelineError (List Node) :=
  match subContent with
  | none => .error .fileNotFound
  | some subtitleContent =>
    if (jsTrim subtitleContent).data.isEmpty then .error .emptyFile
    else .ok ((parseSubtitles parseSync subtitleContent none).map (shiftNode timeMs))

/-- Outcome of the `ShiftCommand` CLI action (commands/subs/subcommands/
shift.ts lines 16-30): a non-integer argument or a zero argument is rejected
by `console.error` + early return; otherwise `shiftSubtitle` runs. -/
inductive ShiftCmdResult where
  | invalidTime
  | zeroTime
  | runShift (timeMs : Int)
deriving DecidableEq, Repr

def shiftCommandAction (timeMsStr : String) : ShiftCmdResult :=
  match parseIntJS timeMsStr with
  | none => .invalidTime
  | some timeMs => if timeMs = 0 then .zeroTime else .runShift timeMs

/-- `path.basename`: the component after the last `/`. -/
def jsBasename (p : String) : String :=
  String.mk ((p.data.reverse.takeWhile (fun c => c ≠ '/')).reverse)

/-- `path.parse(base).name` / `path.basename(p, path.extname(p))`: the base
name with its extension (suffix from the last dot, unless that dot is the
leading character) removed. -/
def parsedName (base : String) : String :=
  match base.data.reverse.dropWhile (fun c => c ≠ '.') with
  | [] => base
  | _ :: [] => base
  | _ :: pre => String.mk pre.reverse

/-- Output file name built by `extractSubtitles` (proc.ts lines 328-329):
`<videoFileName>.<languageOrEmpty><extension>`. -/
def extractOutputName (videoFileName : String) (track : SubtitleTrack) : String :=
  videoFileName ++ "." ++ track.language.getD "" ++ getSubtitleExtension track.codec

/-- `extractSubtitles` (proc.ts lines 287-376). External effects are explicit:
`fileExists` is the `fs.access` check on the source file, `toolExitCode` the
`mkvextract` exit code, `outputExists` the post-invocation `fs.access` check
on each expected output file (directory creation with `recursive: true` never
fails and is not modelled). Expected files that are missing are dropped with a
warning; the call fails with `extractionVerification` only when none exist. -/
def extractSubtitles (filePath : String) (subtitleTracks : List SubtitleTrack)
    (baseDir : String) (fileExists : String → Bool) (toolExitCode : Int)
    (outputExists : String → Bool) : Except PipelineError (List String) :=
  if subtitleTracks.isEmpty then .error .noTracks
  else if !(fileExists filePath) then .error .fileNotFound
  else if toolExitCode != 0 then .error .externalTool
  else
    let videoFileName := parsedName (jsBasename filePath)
    let outputFiles := subtitleTracks.map
      (fun track => baseDir ++ "/" ++ extractOutputName videoFileName track)
    let verifiedFiles := outputFiles.filter outputExists
    if verifiedFiles.isEmpty then .error .extractionVerification
    else .ok verifiedFiles

/-- Environment of one batch run: everything the pipeline obtains from the
file system, the external tools and the human. `pathIsFile` models
`getPathInfo(p) === 'file'` (the helper is imported from ./files, whose
source only ships `getFileInfo`; the call site only asks whether the output
path already exists as a file). `userInputs f` / `skipInputs f` are the lines
the human types at the selection prompts / the skip prompt while `f` is being
processed. -/
structure BatchEnv where
  workdir : String
  tracksOf : String → List SubtitleTrack
  userInputs : String → List String
  skipInputs : String → List String
  pathIsFile : String → Bool
  srcFileExists : String → Bool
  extractToolExit : String → Int
  extractedExists : String → Bool
  fileContent : String → Option String
  parseSync : String → List Node

/-- Observable actions of one batch run, in order. `selectPrompt` and
`skipPrompt` are the two call sites of `readInput` (terminal input reads). -/
inductive BatchEvent where
  | inspect (file : String)
  | selectPrompt (file : String)
  | skipPrompt (file : String) (outputPath : String)
  | extractRun (file : String)
  | mergeOut (outputPath : String)
deriving DecidableEq, Repr

/-- Does this event read a line of user input? -/
def readsUserInput : BatchEvent → Bool
  | .selectPrompt _ => true
  | .skipPrompt _ _ => true
  | _ => false

def isSelectPrompt : BatchEvent → Bool
  | .selectPrompt _ => true
  | _ => false

def isMergeOut : BatchEvent → Bool
  | .mergeOut _ => true
  | _ => false

/-- Events emitted by one invocation of `selectSubtitles`: it prompts (and
reads input) exactly when the candidate list is non-empty (proc.ts line 176
returns `[]` immediately otherwise). -/
def selectorEvents (file : String) (mkvFileTracks : List SubtitleTrack) : List BatchEvent :=
  if mkvFileTracks.isEmpty then [] else [.selectPrompt file]

/-- `findSubtitlesToExtract` (proc.ts lines 497-511) as run inside the batch
for file `file`: reuse the carried targets when they are numerous enough and
all match, otherwise fall back to interactive selection. Returns the emitted
events together with the selection outcome. -/
def findSubtitlesToExtract (env : BatchEnv) (file : String) (numTracks : Nat)
    (targetTracks mkvFileTracks : List SubtitleTrack) :
    List BatchEvent × SelectOutcome :=
  if targetTracks.length < numTracks then
    (selectorEvents file mkvFileTracks,
      (selectSubtitles mkvFileTracks numTracks (env.userInputs file)).1)
  else
    let findResult := findSubtitleTracks targetTracks mkvFileTracks
    if !findResult.allFound then
      (selectorEvents file mkvFileTracks,
        (selectSubtitles mkvFileTracks numTracks (env.userInputs file)).1)
    else ([], .ok findResult.found)

/-- JavaScript template-literal interpolation of a possibly-undefined string
(`undefined` prints as "undefined"). -/
def jsInterp : Option String → String
  | some s => s
  | none => "undefined"

/-- The merged-output path computed at proc.ts line 523:
`` `${workdir}/${name}.${tracks[0].language}${tracks[1].language}${ext(tracks[0].codec)}` ``. -/
def batchOutputPath (workdir name : String) (t0 t1 : SubtitleTrack) : String :=
  workdir ++ "/" ++ name ++ "." ++ jsInterp t0.language ++ jsInterp t1.language
    ++ getSubtitleExtension t0.codec

/-- The validator of the skip prompt (proc.ts line 526):
`['y', 'n'].includes(input.trim().toLowerCase())`. -/
def ynValidator (input : String) : Bool :=
  jsToLower (jsTrim input) == "y" || jsToLower (jsTrim input) == "n"

/-- The extract-then-merge tail of one `batchExtractMergeOp` iteration
(proc.ts lines 533-539). `mergeSrtFiles` is called with `extracted[0]` and
`extracted[1]`; when fewer than two files were verified the missing index is
`undefined` and the read of it raises a TypeError. -/
def extractMergeStep (env : BatchEnv) (mkvFilePath outputPath : String)
    (tracksToExtract : List SubtitleTrack) : List BatchEvent × Option PipelineError :=
  match extractSubtitles mkvFilePath tracksToExtract (env.workdir ++ "/tracks")
      env.srcFileExists (env.extractToolExit mkvFilePath) env.extractedExists with
  | .error e => ([], some e)
  | .ok extracted =>
    match extracted.get? 0, extracted.get? 1 with
    | some p0, some p1 =>
      match mergeSrtFiles env.parseSync ⟨env.fileContent p0, none⟩
          ⟨env.fileContent p1, none⟩ with
      | .error e => ([.extractRun mkvFilePath], some e)
      | .ok _ => ([.extractRun mkvFilePath, .mergeOut outputPath], none)
    | _, _ => ([.extractRun mkvFilePath], some (.typeError .mergeExtractedIndex))

/-- One iteration of `batchExtractMergeOp` (proc.ts lines 513-541) on the
head file: inspect, resolve the two tracks (matching or interactive
selection), compute the merged-output path (the template literal at line 523
reads `tracksToExtract[0]` and then `tracksToExtract[1]`, so a missing index
raises a TypeError there), optionally prompt to skip an existing output, then
extract and merge. Returns the emitted events and either the error that
aborts the batch or the `tracksToExtract` carried to the next file. -/
def batchStep (env : BatchEnv) (mkvFilePath : String)
    (targetTracks : List SubtitleTrack) :
    List BatchEvent × Except PipelineError (List SubtitleTrack) :=
  let name := parsedName (jsBasename mkvFilePath)
  let sel := findSubtitlesToExtract env mkvFilePath 2 targetTracks (env.tracksOf mkvFilePath)
  let ev0 := BatchEvent.inspect mkvFilePath :: sel.1
  match sel.2 with
  | .blocked => (ev0, .error .inputExhausted)
  | .crash => (ev0, .error (.typeError .selectorTrack))
  | .ok tracksToExtract =>
    match tracksToExtract.get? 0 with
    | none => (ev0, .error (.typeError .outputPathIndex0))
    | some t0 =>
      match tracksToExtract.get? 1 with
      | none => (ev0, .error (.typeError .outputPathIndex1))
      | some t1 =>
        let outputPath := batchOutputPath env.workdir name t0 t1
        if env.pathIsFile outputPath then
          match readInputLoop ynValidator (env.skipInputs mkvFilePath) with
          | none => (ev0 ++ [.skipPrompt mkvFilePath outputPath], .error .inputExhausted)
          | some (input, _) =>
            if jsToLower (jsTrim input) == "y" then
              (ev0 ++ [.skipPrompt mkvFilePath outputPath], .ok tracksToExtract)
            else
              let step := extractMergeStep env mkvFilePath outputPath tracksToExtract
              match step.2 with
              | some e => (ev0 ++ [.skipPrompt mkvFilePath outputPath] ++ step.1, .error e)
              | none => (ev0 ++ [.skipPrompt mkvFilePath outputPath] ++ step.1, .ok tracksToExtract)
        else
          let step := extractMergeStep env mkvFilePath outputPath tracksToExtract
          match step.2 with
          | some e => (ev0 ++ step.1, .error e)
          | none => (ev0 ++ step.1, .ok tracksToExtract)

/-- `batchExtractMergeOp` (proc.ts lines 513-542): the recursive fold over the
file list, carrying the last track selection as `targetTracks` (both the
processed and the skipped case recurse with `tracksToExtract`). Returns the
ordered event trace and `none` on completion or the error that aborted the
batch. -/
def batchExtractMergeOp (env : BatchEnv) :
    List String → List SubtitleTrack → List BatchEvent × Option PipelineError
  | [], _ => ([], none)
  | mkvFilePath :: rest, targetTracks =>
    let st := batchStep env mkvFilePath targetTracks
    match st.2 with
    | .error e => (st.1, some e)
    | .ok tracksToExtract =>
      let r := batchExtractMergeOp env rest tracksToExtract
      (st.1 ++ r.1, r.2)

/-- `runBatchExtractMerge` (proc.ts lines 544-546): the batch starts with an
empty target selection; the work queue is the sorted `.mkv` listing of the
directory, supplied here as `mkvFiles`. -/
def runBatchExtractMerge (env : BatchEnv) (mkvFiles : List String) :
    List BatchEvent × Option PipelineError :=
  batchExtractMergeOp env mkvFiles []

/-! Concrete fixtures used by the counterexamples and witnesses. -/

/-- A text subtitle track as the batch scenario of spec §8 describes it:
language "eng", codec "S_TEXT/UTF8", no name, not default, not forced. -/
def tEng1 : SubtitleTrack := ⟨2, "subtitles", "S_TEXT/UTF8", some "eng", none, false, false⟩

/-- Second scenario track: same six compared fields as `tEng1`, different id. -/
def tEng2 : SubtitleTrack := ⟨3, "subtitles", "S_TEXT/UTF8", some "eng", none, false, false⟩

/-- A French text track, used to vary the expected extraction file names. -/
def tFre : SubtitleTrack := ⟨4, "subtitles", "S_TEXT/UTF8", some "fre", none, false, false⟩

/-- A minimal non-empty SRT file body. -/
def demoContent : String := "1\n00:00:00,000 --> 00:00:01,000\nhi\n"

/-- A stub for the external `parseSync`, returning one cue. -/
def demoParse : String → List Node := fun _ => [Node.cue ⟨0, 1000, "hi"⟩]

/-- Environment of a one-file batch whose merged-output path already exists
as a file, so the skip prompt fires; the human answers "q" (which the
inverted `readInput` loop hands back because the y/n validator rejects it). -/
def envSkip : BatchEnv :=
  { workdir := "d"
    tracksOf := fun _ => [tEng1, tEng2]
    userInputs := fun _ => []
    skipInputs := fun _ => ["q"]
    pathIsFile := fun p => p == "d/a.engeng.srt"
    srcFileExists := fun _ => true
    extractToolExit := fun _ => 0
    extractedExists := fun _ => true
    fileContent := fun _ => some demoContent
    parseSync := demoParse }

/-- Environment of the spec §8 three-file batch scenario: every file carries
the two "eng" text tracks; at the first file's selection prompt the human
types "1", then "2", then "q". No output path pre-exists. -/
def envScenario : BatchEnv :=
  { envSkip with
    workdir := "show"
    pathIsFile := fun _ => false
    userInputs := fun f => if f == "show/ep1.mkv" then ["1", "2", "q"] else [] }

/-- Environment of a one-file batch over a container with no subtitle tracks
(selection returns the empty list without prompting for input). -/
def envNoTracks : BatchEnv :=
  { envSkip with
    pathIsFile := fun _ => false
    tracksOf := fun _ => [] }

/-- Environment of a one-file batch over a container with a single subtitle
track; the human answers "5" (out of range, so the inverted `readInput` loop
hands it back). -/
def envOneTrack : BatchEnv :=
  { envSkip with
    pathIsFile := fun _ => false
    tracksOf := fun _ => [tEng1]
    userInputs := fun _ => ["5"] }

/-! Helper lemmas (shared). -/

theorem colorNode_none (n : Node) : colorNode none n = n := by
  cases n <;> rfl

theorem shiftNode_zero (n : Node) : shiftNode 0 n = n := by
  cases n <;> simp [shiftNode]

theorem map_colorNone_shiftZero (l : List Node) :
    ((l.map (colorNode none)).map (shiftNode 0)) = l := by
  induction l with
  | nil => rfl
  | cons a t ih => simp [colorNode_none, shiftNode_zero, ih]

theorem shiftNode_shiftNode (X : Int) (n : Node) :
    shiftNode (-X) (shiftNode X n) = n := by
  cases n with
  | header t => rfl
  | cue d => simp [shiftNode, Int.add_neg_cancel_right]

/-! Claim theorems. -/

/-- C1 (code bug exhibit). In `selectSubtitles`'s interactive loop the
do-while condition of `readInput` is inverted: on the two-track candidate
list, the line "1" satisfies the validator and "3" does not, yet `readInput`
skips past the valid "1" and returns the invalid "3", after which
`selectSubtitles` indexes `subtitles[2]` (undefined) and crashes — the
opposite of the claim that it re-prompts until the validator succeeds and
that every returned entry passed the validator. -/
theorem selectSubtitles_input_loop_inverted :
    selectValidator [tEng1, tEng2] [] "1" = true ∧
    selectValidator [tEng1, tEng2] [] "3" = false ∧
    readInputLoop (selectValidator [tEng1, tEng2] []) ["1", "3"] = some ("3", []) ∧
    (selectSubtitles [tEng1, tEng2] 2 ["1", "3"]).1 = SelectOutcome.crash := by
  decide

/-- C2 (counterexample). `"SubStationAlpha".toLowerCase()` contains neither
"ass" nor "ssa" as a substring, so `getSubtitleExtension` returns ".srt" for
it, not the ".ass" the claim's example table states. -/
theorem getSubtitleExtension_substationalpha_counterexample :
    getSubtitleExtension "SubStationAlpha" = ".srt" ∧
    getSubtitleExtension "SubStationAlpha" ≠ ".ass" := by
  decide

/-- C2 (amended). Extension selection is exactly the case-insensitive
first-match-wins substring rule the spec words (§4.4), and on the four
example codec strings it yields ".srt", ".sup", ".sub", ".srt" — the
"SubStationAlpha" row of the claim's table is the one entry that is wrong
(the rule itself sends it to the ".srt" default). -/
theorem getSubtitleExtension_amended :
    (∀ codec, getSubtitleExtension codec = specExtensionRule codec) ∧
    getSubtitleExtension "SubStationAlpha" = ".srt" ∧
    getSubtitleExtension "HDMV PGS" = ".sup" ∧
    getSubtitleExtension "VobSub" = ".sub" ∧
    getSubtitleExtension "S_TEXT/UTF8" = ".srt" := by
  refine ⟨fun codec => ?_, by decide, by decide, by decide, by decide⟩
  unfold getSubtitleExtension specExtensionRule
  cases h1 : (strIncludes (jsToLower codec) "ass" || strIncludes (jsToLower codec) "ssa") <;>
  cases h2 : (strIncludes (jsToLower codec) "pgs" || strIncludes (jsToLower codec) "hdmv") <;>
  cases h3 : strIncludes (jsToLower codec) "vobsub" <;>
  cases h4 : strIncludes (jsToLower codec) "dvd" <;>
  simp [h1, h2, h3, h4]

/-- C3 (counterexample). `shiftSubtitle` called with offset 0 on a readable,
non-empty subtitle file succeeds (returning the cues unshifted) instead of
failing: the zero check does not live in the shift action. -/
theorem shiftSubtitle_zero_succeeds :
    shiftSubtitle demoParse 0 (some demoContent)
        = Except.ok [Node.cue ⟨0, 1000, "hi"⟩] ∧
    (Except.ok [Node.cue ⟨0, 1000, "hi"⟩] : Except PipelineError (List Node)) ≠
      Except.error PipelineError.invalidOffset := by
  constructor
  · rfl
  · intro h
    exact Except.noConfusion h

/-- C3 (amended). The zero offset is rejected one layer up: the ShiftCommand
CLI action returns early (printing an error, raising nothing) on any argument
parsing to 0 and never invokes `shiftSubtitle`; `shiftSubtitle` itself, given
offset 0 and a non-empty file, succeeds and is an exact no-op on the parsed
nodes. -/
theorem shift_zero_rejected_at_cli (s : String) (p : String → List Node)
    (c : String) (hs : parseIntJS s = some 0)
    (hc : (jsTrim c).data.isEmpty = false) :
    shiftCommandAction s = ShiftCmdResult.zeroTime ∧
    shiftSubtitle p 0 (some c) = Except.ok (p c) := by
  constructor
  · unfold shiftCommandAction
    rw [hs]
    simp
  · have h2 : shiftSubtitle p 0 (some c)
        = if (jsTrim c).data.isEmpty = true then Except.error PipelineError.emptyFile
          else Except.ok ((parseSubtitles p c none).map (shiftNode 0)) := rfl
    rw [h2, hc]
    simp only [Bool.false_eq_true, if_false, parseSubtitles]
    rw [map_colorNone_shiftZero]

/-- Witness for C3's amended theorem at the string "0" and a concrete file. -/
theorem shift_zero_rejected_at_cli_witness :
    shiftCommandAction "0" = ShiftCmdResult.zeroTime ∧
    shiftSubtitle demoParse 0 (some demoContent) = Except.ok (demoParse demoContent) :=
  shift_zero_rejected_at_cli "0" demoParse demoContent (by decide) (by decide)

/-- C8 (confirmed). Shifting every node by `+X` and then by `-X` restores the
original cue `start`/`end` timestamps exactly, and headers pass through a
shift unchanged, for any non-zero integer X (the code never inspects X, the
claim only quantifies over non-zero offsets). -/
theorem shift_roundtrip (nodes : List Node) (X : Int) (hX : X ≠ 0) :
    ((nodes.map (shiftNode X)).map (shiftNode (-X)) = nodes) ∧
    (∀ t, shiftNode X (Node.header t) = Node.header t) := by
  refine ⟨?_, fun t => rfl⟩
  induction nodes with
  | nil => rfl
  | cons a l ih => simp [shiftNode_shiftNode, ih]

/-- Witness for C8 at X = 250 on a one-cue list. -/
theorem shift_roundtrip_witness :
    (([Node.cue ⟨10, 20, "hi"⟩].map (shiftNode 250)).map (shiftNode (-250))
        = [Node.cue ⟨10, 20, "hi"⟩]) ∧
    (∀ t, shiftNode 250 (Node.header t) = Node.header t) :=
  shift_roundtrip [Node.cue ⟨10, 20, "hi"⟩] 250 (by decide)

/-- C7 (code bug exhibit). In the spec's three-file scenario the selector is
indeed reached only once — but it can never complete: the human's first line
"1" is a valid choice (the validator accepts it), yet the inverted `readInput`
loop re-prompts on it and only returns once a line fails the validator, at
which point `selectSubtitles` crashes with a TypeError. The batch aborts on
file 1 and zero files produce a merged output, against the claim's one
selection and three merged .srt files. (The matching half of the claim is
right: had a two-track selection been carried in, files 2 and 3 would adopt
the matched tracks without prompting and both merge — the last three
conjuncts run the batch from that state.) -/
theorem batch_scenario_selector_crash :
    (runBatchExtractMerge envScenario
        ["show/ep1.mkv", "show/ep2.mkv", "show/ep3.mkv"]).2
      = some (PipelineError.typeError TypeErrorSite.selectorTrack) ∧
    ((runBatchExtractMerge envScenario
        ["show/ep1.mkv", "show/ep2.mkv", "show/ep3.mkv"]).1.countP isMergeOut) = 0 ∧
    ((runBatchExtractMerge envScenario
        ["show/ep1.mkv", "show/ep2.mkv", "show/ep3.mkv"]).1.countP isSelectPrompt) = 1 ∧
    selectValidator (envScenario.tracksOf "show/ep1.mkv") [] "1" = true ∧
    (batchExtractMergeOp envScenario ["show/ep2.mkv", "show/ep3.mkv"]
        [tEng1, tEng2]).2 = none ∧
    ((batchExtractMergeOp envScenario ["show/ep2.mkv", "show/ep3.mkv"]
        [tEng1, tEng2]).1.countP isSelectPrompt) = 0 ∧
    ((batchExtractMergeOp envScenario ["show/ep2.mkv", "show/ep3.mkv"]
        [tEng1, tEng2]).1.countP isMergeOut) = 2 := by
  decide

/-- C4 (counterexample). A batch execution in which the carried selection
matches the file's tracks and the merged-output path already exists on disk
reads a line of user input at the skip prompt of `batchExtractMergeOp` —
an input read that is not the selector prompt. -/
theorem batch_skip_prompt_reads_input :
    BatchEvent.skipPrompt "d/a.mkv" "d/a.engeng.srt"
        ∈ (batchExtractMergeOp envSkip ["d/a.mkv"] [tEng1, tEng2]).1 ∧
    readsUserInput (BatchEvent.skipPrompt "d/a.mkv" "d/a.engeng.srt") = true ∧
    isSelectPrompt (BatchEvent.skipPrompt "d/a.mkv" "d/a.engeng.srt") = false := by
  decide

/-- C10 (counterexample). On a container with zero subtitle tracks the
selection returns `[]` (fewer than 2 entries, as the claim's premise has it),
but the TypeError that aborts the pipeline is raised by the read of
`tracksToExtract[0]` — the first interpolation of the output-path template —
not by an access of `tracksToExtract[1]`. -/
theorem batch_no_tracks_crashes_at_index0 :
    (runBatchExtractMerge envNoTracks ["d/solo.mkv"]).2
        = some (PipelineError.typeError TypeErrorSite.outputPathIndex0) ∧
    TypeErrorSite.outputPathIndex0 ≠ TypeErrorSite.outputPathIndex1 ∧
    isSpecifiedErrorKind (PipelineError.typeError TypeErrorSite.outputPathIndex0)
        = false := by
  decide

/-! Matcher characterization (C6). -/

theorem findLoop_eq (cands : List SubtitleTrack) (targets : List SubtitleTrack) :
    findLoop cands targets
      = (targets.filterMap (fun t => cands.find? (fun track => trackEquiv track t)),
         targets.filter (fun t => (cands.find? (fun track => trackEquiv track t)).isNone)) := by
  induction targets with
  | nil => rfl
  | cons t ts ih =>
    simp only [findLoop, ih]
    cases h : cands.find? (fun track => trackEquiv track t) <;>
      simp [List.filterMap_cons, List.filter_cons, h]

/-- C6 (confirmed). `findSubtitleTracks` is a pure function of its two list
arguments whose `found` component is, target by target and in target order,
the first candidate equivalent under the 6-field rule (`List.find?` with
`trackEquiv`, which compares type, codec, language, trackName, default and
forced but not `id`); `allFound` holds exactly when every target found a
match, and `missing` collects the unmatched targets in order. -/
theorem findSubtitleTracks_spec (targets cands : List SubtitleTrack) :
    (findSubtitleTracks targets cands).found
        = targets.filterMap (fun t => cands.find? (fun track => trackEquiv track t)) ∧
    ((findSubtitleTracks targets cands).allFound = true ↔
        ∀ t ∈ targets, (cands.find? (fun track => trackEquiv track t)).isSome = true) ∧
    (findSubtitleTracks targets cands).missing
        = targets.filter (fun t => (cands.find? (fun track => trackEquiv track t)).isNone) ∧
    (findSubtitleTracks targets cands).totalRequested = targets.length := by
  unfold findSubtitleTracks
  rw [findLoop_eq]
  refine ⟨rfl, ?_, rfl, rfl⟩
  simp only [beq_iff_eq, List.length_eq_zero, List.filter_eq_nil_iff]
  constructor
  · intro h t ht
    have := h t ht
    cases hf : cands.find? (fun track => trackEquiv track t) with
    | none => rw [hf] at this; simp at this
    | some v => rfl
  · intro h t ht
    have := h t ht
    cases hf : cands.find? (fun track => trackEquiv track t) with
    | none => rw [hf] at this; simp at this
    | some v => simp

/-! Merge ordering, stability and cardinality (C5). -/

theorem nodeLE_trans : ∀ a b c : Node,
    nodeLE a b = true → nodeLE b c = true → nodeLE a c = true := by
  intro a b c hab hbc
  simp only [nodeLE, decide_eq_true_eq] at *
  exact le_trans hab hbc

theorem nodeLE_total : ∀ a b : Node, (nodeLE a b || nodeLE b a) = true := by
  intro a b
  simp only [nodeLE, Bool.or_eq_true, decide_eq_true_eq]
  exact Int.le_total _ _

theorem mergeSort_filter_key (l : List Node) (s : Int) :
    (l.mergeSort nodeLE).filter (fun n => nodeStart n == s)
      = l.filter (fun n => nodeStart n == s) := by
  have hsub : (l.filter (fun n => nodeStart n == s)).Sublist l := List.filter_sublist l
  have hpw : (l.filter (fun n => nodeStart n == s)).Pairwise
      (fun a b => nodeLE a b = true) := by
    refine List.pairwise_of_forall_mem_list ?_
    intro a ha b hb
    have ha2 : nodeStart a = s := by simpa using (List.mem_filter.mp ha).2
    have hb2 : nodeStart b = s := by simpa using (List.mem_filter.mp hb).2
    simp [nodeLE, ha2, hb2]
  have hstab : (l.filter (fun n => nodeStart n == s)).Sublist (l.mergeSort nodeLE) :=
    List.sublist_mergeSort nodeLE_trans nodeLE_total hpw hsub
  have hall : ∀ x ∈ l.filter (fun n => nodeStart n == s), (nodeStart x == s) = true :=
    fun x hx => (List.mem_filter.mp hx).2
  have hfe : (l.filter (fun n => nodeStart n == s)).filter (fun n => nodeStart n == s)
      = l.filter (fun n => nodeStart n == s) := List.filter_eq_self.mpr hall
  have hstab2 := hstab.filter (fun n => nodeStart n == s)
  rw [hfe] at hstab2
  have hlen : ((l.mergeSort nodeLE).filter (fun n => nodeStart n == s)).length
      = (l.filter (fun n => nodeStart n == s)).length :=
    ((List.mergeSort_perm l nodeLE).filter _).length_eq
  exact (hstab2.eq_of_length hlen.symm).symm

/-- C5 (confirmed). The merge step of `mergeSrtFiles` — concatenation of the
two node lists followed by the stable sort on `nodeStart` (headers keyed 0) —
is, for all node lists: (1) sorted non-decreasing by start; (2) a permutation
of the concatenation; (3) stable: restricted to any fixed start value the
output equals the concatenation-order sublist, so at equal start the first
subtitle's cues precede the second's; (4) cue-count preserving: cues in the
output number the cues of the first list plus those of the second. -/
theorem mergeNodeLists_spec (l1 l2 : List Node) :
    (mergeNodeLists l1 l2).Pairwise (fun a b => nodeStart a ≤ nodeStart b) ∧
    (mergeNodeLists l1 l2).Perm (l1 ++ l2) ∧
    (∀ s : Int, (mergeNodeLists l1 l2).filter (fun n => nodeStart n == s)
        = (l1 ++ l2).filter (fun n => nodeStart n == s)) ∧
    (mergeNodeLists l1 l2).countP isCue = l1.countP isCue + l2.countP isCue := by
  unfold mergeNodeLists
  refine ⟨?_, ?_, ?_, ?_⟩
  · have hs := List.sorted_mergeSort nodeLE_trans nodeLE_total (l1 ++ l2)
    exact hs.imp (fun h => by simpa [nodeLE] using h)
  · exact List.mergeSort_perm (l1 ++ l2) nodeLE
  · intro s
    exact mergeSort_filter_key (l1 ++ l2) s
  · rw [(List.mergeSort_perm (l1 ++ l2) nodeLE).countP_eq, List.countP_append]

/-! Extraction verification (C9). -/

/-- C9 (confirmed). Once the pre-checks pass (some tracks requested, source
file present, tool exit 0), `extractSubtitles` filters the expected output
files through the existence check and returns exactly the existing ones —
expected files that are missing are dropped, not fatal — and it fails with
`extractionVerification` precisely when none of the expected files exist. -/
theorem extractSubtitles_verification (filePath baseDir : String)
    (tracks : List SubtitleTrack) (fileExists outputExists : String → Bool)
    (code : Int) (hne : tracks.isEmpty = false) (hex : fileExists filePath = true)
    (hcode : code = 0) :
    extractSubtitles filePath tracks baseDir fileExists code outputExists
      = (if (tracks.map (fun track => baseDir ++ "/" ++
              extractOutputName (parsedName (jsBasename filePath)) track)).filter
              outputExists = []
         then Except.error PipelineError.extractionVerification
         else Except.ok ((tracks.map (fun track => baseDir ++ "/" ++
              extractOutputName (parsedName (jsBasename filePath)) track)).filter
              outputExists)) := by
  unfold extractSubtitles
  rw [hne, hex, hcode]
  simp only [Bool.false_eq_true, if_false, Bool.not_true, ne_eq, bne_self_eq_false]
  simp [List.isEmpty_iff]

/-- Witness for C9: two expected files, only the "eng" one exists on disk;
the call returns just that file. -/
theorem extractSubtitles_verification_witness :
    extractSubtitles "d/v.mkv" [tEng1, tFre] "out" (fun _ => true) 0
        (fun p => p == "out/v.eng.srt")
      = Except.ok ["out/v.eng.srt"] := by
  have h := extractSubtitles_verification "d/v.mkv" "out" [tEng1, tFre]
      (fun _ => true) (fun p => p == "out/v.eng.srt") 0 (by decide) rfl rfl
  exact h.trans rfl

/-! Under-resolved track lists abort the batch with an untyped error (C10). -/

/-- C10 (amended theorem). Whenever the track resolution for the head file of
a batch yields fewer than two tracks — or crashes inside the selector, which
is what actually happens on a one-candidate file under the inverted
`readInput` loop — the batch aborts with an untyped runtime `typeError` that
is not one of the spec's named error kinds: at `tracksToExtract[0]` for an
empty resolution, at `tracksToExtract[1]` for a one-element resolution, or at
the selector's track indexing. -/
theorem batch_under_two_tracks_aborts_runtime (env : BatchEnv) (f : String)
    (rest : List String) (targets : List SubtitleTrack)
    (h : (∃ l, (findSubtitlesToExtract env f 2 targets (env.tracksOf f)).2
              = SelectOutcome.ok l ∧ l.length < 2)
         ∨ (findSubtitlesToExtract env f 2 targets (env.tracksOf f)).2
              = SelectOutcome.crash) :
    ∃ site, (batchExtractMergeOp env (f :: rest) targets).2
        = some (PipelineError.typeError site) ∧
      isSpecifiedErrorKind (PipelineError.typeError site) = false := by
  have hstep : ∃ site, (batchStep env f targets).2
      = Except.error (PipelineError.typeError site) := by
    rcases h with ⟨l, hsel, hlen⟩ | hsel
    · match l, hlen with
      | [], _ =>
        refine ⟨TypeErrorSite.outputPathIndex0, ?_⟩
        simp only [batchStep, hsel]
        rfl
      | [t], _ =>
        refine ⟨TypeErrorSite.outputPathIndex1, ?_⟩
        simp only [batchStep, hsel]
        rfl
    · refine ⟨TypeErrorSite.selectorTrack, ?_⟩
      simp only [batchStep, hsel]
  rcases hstep with ⟨site, hsite⟩
  refine ⟨site, ?_, rfl⟩
  simp only [batchExtractMergeOp, hsite]

/-- Witness for C10's amended theorem: the one-candidate file of
`envOneTrack` takes the selector-crash branch. -/
theorem batch_under_two_tracks_aborts_runtime_witness :
    ∃ site, (batchExtractMergeOp envOneTrack ["d/solo.mkv"] []).2
        = some (PipelineError.typeError site) ∧
      isSpecifiedErrorKind (PipelineError.typeError site) = false :=
  batch_under_two_tracks_aborts_runtime envOneTrack "d/solo.mkv" [] []
    (Or.inr (by decide))

/-! Which batch steps read user input (C4). -/

theorem findSubtitlesToExtract_events (env : BatchEnv) (f : String) (n : Nat)
    (targets cands : List SubtitleTrack) :
    (findSubtitlesToExtract env f n targets cands).1 = [] ∨
    (findSubtitlesToExtract env f n targets cands).1 = [BatchEvent.selectPrompt f] := by
  have hse : selectorEvents f cands = [] ∨
      selectorEvents f cands = [BatchEvent.selectPrompt f] := by
    unfold selectorEvents
    split
    · exact Or.inl rfl
    · exact Or.inr rfl
  simp only [findSubtitlesToExtract]
  split
  · exact hse
  · split
    · exact hse
    · exact Or.inl rfl

theorem extractMergeStep_no_input (env : BatchEnv) (f op : String)
    (tracks : List SubtitleTrack) :
    ∀ e ∈ (extractMergeStep env f op tracks).1, readsUserInput e = false := by
  intro e he
  unfold extractMergeStep at he
  split at he
  · simp at he
  · split at he
    · split at he
      · simp at he
        subst he
        rfl
      · simp at he
        rcases he with rfl | rfl <;> rfl
    · simp at he
      subst he
      rfl

theorem batchStep_events_cases (env : BatchEnv) (f : String)
    (targets : List SubtitleTrack) :
    ∃ tail, (batchStep env f targets).1
        = BatchEvent.inspect f ::
            ((findSubtitlesToExtract env f 2 targets (env.tracksOf f)).1 ++ tail) ∧
      ∀ x ∈ tail, readsUserInput x = true →
        ∃ p, x = BatchEvent.skipPrompt f p ∧ env.pathIsFile p = true := by
  have hstep : ∀ op l x, x ∈ (extractMergeStep env f op l).1 →
      readsUserInput x = true → False := by
    intro op l x hmem hxr
    rw [extractMergeStep_no_input env f op l x hmem] at hxr
    exact Bool.noConfusion hxr
  simp only [batchStep]
  split
  · exact ⟨[], by simp, by simp⟩
  · exact ⟨[], by simp, by simp⟩
  · split
    · exact ⟨[], by simp, by simp⟩
    · split
      · exact ⟨[], by simp, by simp⟩
      · rename_i xsel ttel heqsel x0 t0 h0 x1 t1 h1
        split
        · rename_i hfile
          split
          · refine ⟨[BatchEvent.skipPrompt f
              (batchOutputPath env.workdir (parsedName (jsBasename f)) t0 t1)], by simp, ?_⟩
            intro x hx _
            simp at hx
            subst hx
            exact ⟨_, rfl, hfile⟩
          · split
            · refine ⟨[BatchEvent.skipPrompt f
                (batchOutputPath env.workdir (parsedName (jsBasename f)) t0 t1)], by simp, ?_⟩
              intro x hx _
              simp at hx
              subst hx
              exact ⟨_, rfl, hfile⟩
            · split
              · refine ⟨[BatchEvent.skipPrompt f
                    (batchOutputPath env.workdir (parsedName (jsBasename f)) t0 t1)] ++
                    (extractMergeStep env f
                      (batchOutputPath env.workdir (parsedName (jsBasename f)) t0 t1) ttel).1,
                  by simp, ?_⟩
                intro x hx hxr
                rcases List.mem_append.mp hx with h2 | h2
                · simp at h2
                  subst h2
                  exact ⟨_, rfl, hfile⟩
                · exact absurd hxr (fun h => hstep _ _ _ h2 h)
              · refine ⟨[BatchEvent.skipPrompt f
                    (batchOutputPath env.workdir (parsedName (jsBasename f)) t0 t1)] ++
                    (extractMergeStep env f
                      (batchOutputPath env.workdir (parsedName (jsBasename f)) t0 t1) ttel).1,
                  by simp, ?_⟩
                intro x hx hxr
                rcases List.mem_append.mp hx with h2 | h2
                · simp at h2
                  subst h2
                  exact ⟨_, rfl, hfile⟩
                · exact absurd hxr (fun h => hstep _ _ _ h2 h)
        · split
          · refine ⟨(extractMergeStep env f
                (batchOutputPath env.workdir (parsedName (jsBasename f)) t0 t1) ttel).1,
              by simp, ?_⟩
            intro x hx hxr
            exact absurd hxr (fun h => hstep _ _ _ hx h)
          · refine ⟨(extractMergeStep env f
                (batchOutputPath env.workdir (parsedName (jsBasename f)) t0 t1) ttel).1,
              by simp, ?_⟩
            intro x hx hxr
            exact absurd hxr (fun h => hstep _ _ _ hx h)

theorem batchStep_reads_only (env : BatchEnv) (f : String)
    (targets : List SubtitleTrack) :
    ∀ e ∈ (batchStep env f targets).1, readsUserInput e = true →
      isSelectPrompt e = true ∨
        ∃ p, e = BatchEvent.skipPrompt f p ∧ env.pathIsFile p = true := by
  intro e he hr
  rcases batchStep_events_cases env f targets with ⟨tail, heq, htail⟩
  rw [heq] at he
  rcases List.mem_cons.mp he with rfl | h1
  · simp [readsUserInput] at hr
  · rcases List.mem_append.mp h1 with h2 | h2
    · rcases findSubtitlesToExtract_events env f 2 targets (env.tracksOf f) with h3 | h3 <;>
        rw [h3] at h2
      · simp at h2
      · simp at h2
        subst h2
        exact Or.inl rfl
    · exact Or.inr (htail e h2 hr)

/-- C4 (amended theorem). When no computed merged-output path pre-exists as a
file, every input-reading event of a whole batch run is the selector prompt —
i.e. the skip prompt of `batchExtractMergeOp`, the second `readInput` call
site, fires only for an already-existing output file, and apart from it the
selector is indeed the only interactive step of the pipeline. -/
theorem batch_no_existing_output_only_selector_reads (env : BatchEnv)
    (hpf : ∀ p, env.pathIsFile p = false) :
    ∀ (files : List String) (targets : List SubtitleTrack) (e : BatchEvent),
      e ∈ (batchExtractMergeOp env files targets).1 → readsUserInput e = true →
        isSelectPrompt e = true := by
  intro files
  induction files with
  | nil =>
    intro targets e he _
    simp [batchExtractMergeOp] at he
  | cons f rest ih =>
    intro targets e he hr
    rw [batchExtractMergeOp] at he
    split at he
    · rcases batchStep_reads_only env f targets e he hr with h | ⟨p, rfl, hp⟩
      · exact h
      · rw [hpf p] at hp
        exact Bool.noConfusion hp
    · rcases List.mem_append.mp he with h1 | h1
      · rcases batchStep_reads_only env f targets e h1 hr with h | ⟨p, rfl, hp⟩
        · exact h
        · rw [hpf p] at hp
          exact Bool.noConfusion hp
      · exact ih _ e h1 hr

/-- Witness for C4's amended theorem: in the one-track environment (no
pre-existing outputs) the selector prompt occurs in the trace and is indeed a
selector prompt. -/
theorem batch_no_existing_output_only_selector_reads_witness :
    isSelectPrompt (BatchEvent.selectPrompt "d/solo.mkv") = true :=
  batch_no_existing_output_only_selector_reads envOneTrack (fun _ => rfl)
    ["d/solo.mkv"] [] (BatchEvent.selectPrompt "d/solo.mkv") (by decide) rfl

end DjCli
